import Mathlib

/-!
Formal model of the quantum_api repository core:
* `src/quantum_encryption.py` — `quantum_encrypt` / `quantum_decrypt`, the
  authenticated-encryption envelope (nonce ∥ tag ∥ ciphertext, base64-encoded).
* `src/quantum_api/endpoint.py` — `RateLimiter` (token bucket) and the
  `endpoint` decorator's `wrapper` (dispatch pipeline).
* `src/quantum_api/response.py` — `APIError`.

Conventions of the embedding:
* Python `bytes` values are `List Nat` with every entry `< 256`.
* Python `float` arithmetic of the rate limiter is modelled exactly over `ℚ`.
* Nondeterministic inputs (`os.urandom(12)` nonce, the elapsed time measured
  from the monotonic clock) are explicit parameters.
* The external AES-GCM primitive from the `cryptography` package is a
  parameter (`AEADScheme`); the argument-validation behaviour of
  `algorithms.AES` / `modes.GCM` constructors (key-size check, IV-length
  check, 16-byte-minimum tag check) is transcribed at the call sites, since
  those raises happen inside `quantum_encrypt` / `quantum_decrypt` and are
  not covered by the `try/except` in the source.
* `str.encode("utf-8")` / `bytes.decode("utf-8")` are implemented concretely
  below (strict UTF-8, as in CPython).
-/

/-! ### UTF-8 (model of CPython `str.encode("utf-8")` / `bytes.decode("utf-8")`) -/

/-- Byte sequence of one character under UTF-8. -/
def utf8EncodeChar (c : Char) : List Nat :=
  if c.toNat < 0x80 then [c.toNat]
  else if c.toNat < 0x800 then [0xC0 + c.toNat / 64, 0x80 + c.toNat % 64]
  else if c.toNat < 0x10000 then
    [0xE0 + c.toNat / 4096, 0x80 + c.toNat / 64 % 64, 0x80 + c.toNat % 64]
  else
    [0xF0 + c.toNat / 262144, 0x80 + c.toNat / 4096 % 64, 0x80 + c.toNat / 64 % 64,
      0x80 + c.toNat % 64]

/-- UTF-8 encoding of a string, as a byte list (model of `s.encode("utf-8")`). -/
def utf8Encode (s : String) : List Nat :=
  (s.data.map utf8EncodeChar).flatten

/-- One step of strict UTF-8 decoding: given the leading byte `b1` and the
remaining bytes, return the decoded character and the unconsumed suffix.
Rejects truncated sequences, stray continuation bytes, overlong forms,
surrogates and code points above `0x10FFFF`, exactly as CPython's
`bytes.decode("utf-8")` does. -/
def utf8SplitChar (b1 : Nat) (rest : List Nat) : Option (Char × List Nat) :=
  if b1 < 0x80 then some (Char.ofNat b1, rest)
  else if b1 < 0xC2 then none
  else if b1 < 0xE0 then
    match rest with
    | b2 :: rest2 =>
      if 0x80 ≤ b2 ∧ b2 < 0xC0 then
        some (Char.ofNat ((b1 - 0xC0) * 64 + (b2 - 0x80)), rest2)
      else none
    | [] => none
  else if b1 < 0xF0 then
    match rest with
    | b2 :: b3 :: rest3 =>
      if (0x80 ≤ b2 ∧ b2 < 0xC0) ∧ (0x80 ≤ b3 ∧ b3 < 0xC0) ∧
          (b1 = 0xE0 → 0xA0 ≤ b2) ∧ (b1 = 0xED → b2 < 0xA0) then
        some (Char.ofNat ((b1 - 0xE0) * 4096 + (b2 - 0x80) * 64 + (b3 - 0x80)), rest3)
      else none
    | _ => none
  else if b1 < 0xF5 then
    match rest with
    | b2 :: b3 :: b4 :: rest4 =>
      if (0x80 ≤ b2 ∧ b2 < 0xC0) ∧ (0x80 ≤ b3 ∧ b3 < 0xC0) ∧ (0x80 ≤ b4 ∧ b4 < 0xC0) ∧
          (b1 = 0xF0 → 0x90 ≤ b2) ∧ (b1 = 0xF4 → b2 < 0x90) then
        some (Char.ofNat ((b1 - 0xF0) * 262144 + (b2 - 0x80) * 4096 + (b3 - 0x80) * 64 +
          (b4 - 0x80)), rest4)
      else none
    | _ => none
  else none

/-- Fuel-indexed strict UTF-8 decoding loop: decodes one character per step.
A fuel of at least the list length always suffices, since every step consumes
at least one byte. -/
def utf8DecodeFuel : Nat → List Nat → Option (List Char)
  | _, [] => some []
  | 0, _ :: _ => none
  | fuel + 1, b1 :: rest =>
    match utf8SplitChar b1 rest with
    | some (c, rest2) => (utf8DecodeFuel fuel rest2).map (fun cs => c :: cs)
    | none => none

/-- Strict UTF-8 decoding of a byte list. -/
def utf8DecodeAux (bs : List Nat) : Option (List Char) :=
  utf8DecodeFuel bs.length bs

/-- Model of `bytes.decode("utf-8")` as a `String` producer. -/
def utf8DecodeStr (bs : List Nat) : Option String :=
  (utf8DecodeAux bs).map String.mk

/-- Code-point bounds carried by every `Char`. -/
theorem char_valid_bounds (c : Char) :
    c.toNat < 0xd800 ∨ (0xdfff < c.toNat ∧ c.toNat < 0x110000) :=
  c.valid

/-- Every byte of the UTF-8 encoding of a character is below 256. -/
theorem utf8EncodeChar_lt_256 (c : Char) : ∀ b ∈ utf8EncodeChar c, b < 256 := by
  have hv := char_valid_bounds c
  intro b hb
  unfold utf8EncodeChar at hb
  split at hb <;> try split at hb
  all_goals try split at hb
  all_goals simp only [List.mem_cons, List.not_mem_nil, or_false] at hb
  all_goals omega

/-- A successful decoding step only consumes bytes: the unconsumed suffix is
no longer than the input. -/
theorem utf8SplitChar_length (b1 : Nat) (rest : List Nat) (c : Char) (rest2 : List Nat)
    (h : utf8SplitChar b1 rest = some (c, rest2)) : rest2.length ≤ rest.length := by
  unfold utf8SplitChar at h
  repeat' split at h
  all_goals simp_all
  all_goals omega

/-- Fuel does not matter once it covers the list length. -/
theorem utf8DecodeFuel_congr : ∀ (f1 f2 : Nat) (l : List Nat), l.length ≤ f1 → l.length ≤ f2 →
    utf8DecodeFuel f1 l = utf8DecodeFuel f2 l
  | f1, f2, [], _, _ => by cases f1 <;> cases f2 <;> rfl
  | f1 + 1, f2 + 1, b1 :: rest, h1, h2 => by
    rw [utf8DecodeFuel, utf8DecodeFuel]
    cases hs : utf8SplitChar b1 rest with
    | none => rfl
    | some p =>
      obtain ⟨c, rest2⟩ := p
      have hlen := utf8SplitChar_length b1 rest c rest2 hs
      simp only [List.length_cons] at h1 h2
      dsimp only
      rw [utf8DecodeFuel_congr f1 f2 rest2 (by omega) (by omega)]

/-- Splitting off the UTF-8 encoding of a character recovers the character
and the unconsumed suffix (single-byte case). -/
theorem utf8SplitChar_enc1 (v : Nat) (h : v < 0x80) (rest : List Nat) :
    utf8SplitChar v rest = some (Char.ofNat v, rest) := by
  unfold utf8SplitChar
  rw [if_pos h]

/-- Splitting off the UTF-8 encoding of a character (two-byte case). -/
theorem utf8SplitChar_enc2 (v : Nat) (h1 : 0x80 ≤ v) (h2 : v < 0x800) (rest : List Nat) :
    utf8SplitChar (0xC0 + v / 64) ((0x80 + v % 64) :: rest) = some (Char.ofNat v, rest) := by
  unfold utf8SplitChar
  rw [if_neg (by omega), if_neg (by omega), if_pos (by omega)]
  dsimp only
  rw [if_pos (by omega)]
  have e1 : (0xC0 + v / 64 - 0xC0) * 64 + (0x80 + v % 64 - 0x80) = v := by omega
  rw [e1]

/-- Splitting off the UTF-8 encoding of a character (three-byte case). -/
theorem utf8SplitChar_enc3 (v : Nat) (h1 : 0x800 ≤ v) (h2 : v < 0x10000)
    (hs : v < 0xd800 ∨ 0xdfff < v) (rest : List Nat) :
    utf8SplitChar (0xE0 + v / 4096) ((0x80 + v / 64 % 64) :: (0x80 + v % 64) :: rest) =
      some (Char.ofNat v, rest) := by
  unfold utf8SplitChar
  rw [if_neg (by omega), if_neg (by omega), if_neg (by omega), if_pos (by omega)]
  dsimp only
  rw [if_pos (by omega)]
  have e1 : (0xE0 + v / 4096 - 0xE0) * 4096 + (0x80 + v / 64 % 64 - 0x80) * 64 +
      (0x80 + v % 64 - 0x80) = v := by omega
  rw [e1]

/-- Splitting off the UTF-8 encoding of a character (four-byte case). -/
theorem utf8SplitChar_enc4 (v : Nat) (h1 : 0x10000 ≤ v) (h2 : v < 0x110000) (rest : List Nat) :
    utf8SplitChar (0xF0 + v / 262144)
      ((0x80 + v / 4096 % 64) :: (0x80 + v / 64 % 64) :: (0x80 + v % 64) :: rest) =
      some (Char.ofNat v, rest) := by
  unfold utf8SplitChar
  rw [if_neg (by omega), if_neg (by omega), if_neg (by omega), if_neg (by omega),
    if_pos (by omega)]
  dsimp only
  rw [if_pos (by omega)]
  have e1 : (0xF0 + v / 262144 - 0xF0) * 262144 + (0x80 + v / 4096 % 64 - 0x80) * 4096 +
      (0x80 + v / 64 % 64 - 0x80) * 64 + (0x80 + v % 64 - 0x80) = v := by omega
  rw [e1]

/-- Decoding after encoding one character: the decoder strips exactly the
encoded bytes and yields the character back. -/
theorem utf8DecodeAux_encodeChar (c : Char) (rest : List Nat) :
    utf8DecodeAux (utf8EncodeChar c ++ rest) = (utf8DecodeAux rest).map (fun cs => c :: cs) := by
  have hv := char_valid_bounds c
  have hc := Char.ofNat_toNat c
  unfold utf8DecodeAux utf8EncodeChar
  by_cases h1 : c.toNat < 0x80
  · rw [if_pos h1]
    simp only [List.cons_append, List.nil_append, List.length_cons]
    rw [utf8DecodeFuel, utf8SplitChar_enc1 c.toNat h1, hc]
  · by_cases h2 : c.toNat < 0x800
    · rw [if_neg h1, if_pos h2]
      simp only [List.cons_append, List.nil_append, List.length_cons]
      rw [utf8DecodeFuel, utf8SplitChar_enc2 c.toNat (by omega) h2, hc]
      dsimp only
      rw [utf8DecodeFuel_congr (rest.length + 1) rest.length rest (by omega) (by omega)]
    · by_cases h3 : c.toNat < 0x10000
      · rw [if_neg h1, if_neg h2, if_pos h3]
        simp only [List.cons_append, List.nil_append, List.length_cons]
        rw [utf8DecodeFuel, utf8SplitChar_enc3 c.toNat (by omega) h3 (by omega), hc]
        dsimp only
        rw [utf8DecodeFuel_congr (rest.length + 2) rest.length rest (by omega) (by omega)]
      · rw [if_neg h1, if_neg h2, if_neg h3]
        simp only [List.cons_append, List.nil_append, List.length_cons]
        rw [utf8DecodeFuel, utf8SplitChar_enc4 c.toNat (by omega) (by omega), hc]
        dsimp only
        rw [utf8DecodeFuel_congr (rest.length + 3) rest.length rest (by omega) (by omega)]

/-- UTF-8 round-trip on char lists. -/
theorem utf8DecodeAux_encode_list (cs : List Char) :
    utf8DecodeAux ((cs.map utf8EncodeChar).flatten) = some cs := by
  induction cs with
  | nil => rfl
  | cons c cs ih =>
    rw [List.map_cons, List.flatten_cons, utf8DecodeAux_encodeChar, ih]
    rfl

/-- UTF-8 round-trip: decoding an encoded string returns the string. -/
theorem utf8DecodeStr_encode (s : String) : utf8DecodeStr (utf8Encode s) = some s := by
  rw [utf8DecodeStr, utf8Encode, utf8DecodeAux_encode_list]
  rfl

/-- Every byte of a UTF-8 encoded string is below 256. -/
theorem utf8Encode_lt_256 (s : String) : ∀ b ∈ utf8Encode s, b < 256 := by
  intro b hb
  simp only [utf8Encode, List.mem_flatten, List.mem_map] at hb
  obtain ⟨l, ⟨c, _, rfl⟩, hbl⟩ := hb
  exact utf8EncodeChar_lt_256 c b hbl

/-! ### Base64 (model of `base64.b64encode` / `base64.b64decode`)

The decoder models the strict well-formed case (length a multiple of four,
standard alphabet, canonical padding) and returns `none` otherwise; every
envelope handled by the claims is produced by the encoder and is well formed.
-/

/-- The standard base64 alphabet. -/
def b64Alphabet : List Char :=
  "ABCDEFGHIJKLMNOPQRSTUVWXYZabcdefghijklmnopqrstuvwxyz0123456789+/".data

/-- Alphabet character of a 6-bit group. -/
def b64Char (n : Nat) : Char :=
  b64Alphabet.getD n ('=')

/-- Index of an alphabet character, `none` for non-alphabet characters. -/
def b64Index (c : Char) : Option Nat :=
  b64Alphabet.findIdx? (fun x => x == c)

/-- Model of `base64.b64encode`: bytes to characters, three bytes to four characters,
with `=` padding. -/
def b64EncodeBytes : List Nat → List Char
  | [] => []
  | [e1] => [b64Char (e1 / 4), b64Char (e1 % 4 * 16), '=', '=']
  | [e1, e2] => [b64Char (e1 / 4), b64Char (e1 % 4 * 16 + e2 / 16), b64Char (e2 % 16 * 4), '=']
  | e1 :: e2 :: e3 :: rest =>
    b64Char (e1 / 4) :: b64Char (e1 % 4 * 16 + e2 / 16) :: b64Char (e2 % 16 * 4 + e3 / 64) ::
      b64Char (e3 % 64) :: b64EncodeBytes rest

/-- Model of `base64.b64decode`: characters back to bytes, strict well-formed inputs
only. Unused low bits before padding are discarded, as CPython does. -/
def b64DecodeBytes : List Char → Option (List Nat)
  | [] => some []
  | c1 :: c2 :: c3 :: c4 :: rest =>
    if c4 = '=' then
      if rest = [] then
        if c3 = '=' then
          match b64Index c1, b64Index c2 with
          | some n1, some n2 => some [n1 * 4 + n2 / 16]
          | _, _ => none
        else
          match b64Index c1, b64Index c2, b64Index c3 with
          | some n1, some n2, some n3 => some [n1 * 4 + n2 / 16, n2 % 16 * 16 + n3 / 4]
          | _, _, _ => none
      else none
    else
      match b64Index c1, b64Index c2, b64Index c3, b64Index c4, b64DecodeBytes rest with
      | some n1, some n2, some n3, some n4, some tail =>
        some ((n1 * 4 + n2 / 16) :: (n2 % 16 * 16 + n3 / 4) :: (n3 % 4 * 64 + n4) :: tail)
      | _, _, _, _, _ => none
  | _ => none

/-- The alphabet inverts its own indexing on 6-bit groups. -/
theorem b64Index_b64Char (n : Nat) (h : n < 64) : b64Index (b64Char n) = some n := by
  have : ∀ m : Fin 64, b64Index (b64Char m.val) = some m.val := by decide
  exact this ⟨n, h⟩

/-- Alphabet characters are never the padding character. -/
theorem b64Char_ne_pad (n : Nat) (h : n < 64) : b64Char n ≠ '=' := by
  have : ∀ m : Fin 64, b64Char m.val ≠ '=' := by decide
  exact this ⟨n, h⟩

/-- Base64 round-trip on byte lists. -/
theorem b64DecodeBytes_encode : ∀ (l : List Nat), (∀ b ∈ l, b < 256) →
    b64DecodeBytes (b64EncodeBytes l) = some l
  | [], _ => rfl
  | [e1], h => by
    have he1 : e1 < 256 := h e1 (by simp)
    rw [b64EncodeBytes, b64DecodeBytes]
    rw [if_pos rfl, if_pos rfl, if_pos rfl]
    rw [b64Index_b64Char (e1 / 4) (by omega), b64Index_b64Char (e1 % 4 * 16) (by omega)]
    dsimp only
    have e : e1 / 4 * 4 + e1 % 4 * 16 / 16 = e1 := by omega
    rw [e]
  | [e1, e2], h => by
    have he1 : e1 < 256 := h e1 (by simp)
    have he2 : e2 < 256 := h e2 (by simp)
    rw [b64EncodeBytes, b64DecodeBytes]
    rw [if_pos rfl, if_pos rfl]
    rw [if_neg (b64Char_ne_pad (e2 % 16 * 4) (by omega))]
    rw [b64Index_b64Char (e1 / 4) (by omega), b64Index_b64Char (e1 % 4 * 16 + e2 / 16) (by omega),
      b64Index_b64Char (e2 % 16 * 4) (by omega)]
    dsimp only
    have f1 : e1 / 4 * 4 + (e1 % 4 * 16 + e2 / 16) / 16 = e1 := by omega
    have f2 : (e1 % 4 * 16 + e2 / 16) % 16 * 16 + e2 % 16 * 4 / 4 = e2 := by omega
    rw [f1, f2]
  | e1 :: e2 :: e3 :: rest, h => by
    have he1 : e1 < 256 := h e1 (by simp)
    have he2 : e2 < 256 := h e2 (by simp)
    have he3 : e3 < 256 := h e3 (by simp)
    have ih := b64DecodeBytes_encode rest (fun b hb => h b (by simp [hb]))
    rw [b64EncodeBytes, b64DecodeBytes]
    rw [if_neg (b64Char_ne_pad (e3 % 64) (by omega))]
    rw [b64Index_b64Char (e1 / 4) (by omega), b64Index_b64Char (e1 % 4 * 16 + e2 / 16) (by omega),
      b64Index_b64Char (e2 % 16 * 4 + e3 / 64) (by omega), b64Index_b64Char (e3 % 64) (by omega),
      ih]
    dsimp only
    have f1 : e1 / 4 * 4 + (e1 % 4 * 16 + e2 / 16) / 16 = e1 := by omega
    have f2 : (e1 % 4 * 16 + e2 / 16) % 16 * 16 + (e2 % 16 * 4 + e3 / 64) / 4 = e2 := by omega
    have f3 : (e2 % 16 * 4 + e3 / 64) % 4 * 64 + e3 % 64 = e3 := by omega
    rw [f1, f2, f3]

/-! ### The authenticated-encryption envelope (`src/quantum_encryption.py`)

`quantum_encrypt` / `quantum_decrypt` call into the external `cryptography`
package.  The AES-GCM cipher core is a parameter (`AEADScheme`); the
deterministic argument validation performed by `algorithms.AES(key)` and
`modes.GCM(nonce, tag)` — key-size check, IV-length range check, 16-byte
minimum tag check — happens at the call sites in the source, before the
`try/except` block, and is transcribed here.  The random nonce drawn by
`os.urandom(12)` is an explicit parameter. -/

/-- Interface of the external AES-GCM primitive:
`enc key nonce plaintext = (ciphertext, tag)`;
`dec key nonce tag ciphertext` is `some plaintext` on successful tag
verification and `none` on `InvalidTag`. -/
structure AEADScheme where
  enc : List Nat → List Nat → List Nat → List Nat × List Nat
  dec : List Nat → List Nat → List Nat → List Nat → Option (List Nat)

/-- Correct decryption of own encryptions, the boundary contract of AES-GCM. -/
def AEADCorrect (A : AEADScheme) : Prop :=
  ∀ key nonce d, A.dec key nonce (A.enc key nonce d).2 (A.enc key nonce d).1 = some d

/-- Shape contract of AES-GCM: ciphertext as long as the plaintext, 16-byte
tag, and byte-valued outputs. -/
def AEADWellFormed (A : AEADScheme) : Prop :=
  ∀ key nonce d, (∀ b ∈ d, b < 256) →
    (A.enc key nonce d).1.length = d.length ∧ (A.enc key nonce d).2.length = 16 ∧
      (∀ b ∈ (A.enc key nonce d).1, b < 256) ∧ (∀ b ∈ (A.enc key nonce d).2, b < 256)

/-- A Python value that is either `str` or `bytes`, as accepted by
`quantum_encrypt`. -/
inductive PyData where
  | str (s : String)
  | bytes (b : List Nat)
deriving DecidableEq

/-- Model of `if isinstance(data, str): data = data.encode("utf-8")`. -/
def PyData.toBytes : PyData → List Nat
  | .str s => utf8Encode s
  | .bytes b => b

/-- The Python exceptions observable from `quantum_encrypt` / `quantum_decrypt`. -/
inductive PyErr where
  | valueError (msg : String)
  | unicodeDecodeError
  | binasciiError
deriving DecidableEq

/-- Key-size validation of `algorithms.AES(key)`: it accepts 128-, 192- or 256-bit keys. -/
def aesKeySizeOk (key : List Nat) : Bool :=
  key.length == 16 || key.length == 24 || key.length == 32

/-- Message of the `ValueError` raised by `algorithms.AES` for a bad key size. -/
def aesKeyMsg (n : Nat) : String :=
  "Invalid key size (" ++ toString (n * 8) ++ ") for AES."

/-- Message of the `ValueError` raised by `modes.GCM` for an out-of-range IV. -/
def gcmIvMsg : String :=
  "initialization_vector must be between 8 and 128 bytes (64 and 1024 bits)"

/-- Message of the `ValueError` raised by `modes.GCM` for a short authentication tag. -/
def gcmTagMsg : String :=
  "Authentication tag must be 16 bytes or longer."

/-- The single error message raised by the `except` block of `quantum_decrypt`. -/
def decryptFailMsg : String :=
  "Decryption failed. Authentication token or key may be invalid."

/-- Model of `quantum_encrypt(data, key)` with the nonce drawn by `os.urandom(12)` made
explicit: UTF-8-encode `str` input, AES-GCM-encrypt, emit
`base64(nonce ∥ tag ∥ ciphertext)` as text. -/
def quantum_encrypt (A : AEADScheme) (data : PyData) (key nonce : List Nat) :
    Except PyErr String :=
  if ¬ aesKeySizeOk key then .error (.valueError (aesKeyMsg key.length))
  else if nonce.length < 8 ∨ 128 < nonce.length then .error (.valueError gcmIvMsg)
  else
    let encrypted := A.enc key nonce data.toBytes
    .ok (String.mk (b64EncodeBytes (nonce ++ encrypted.2 ++ encrypted.1)))

/-- Model of `quantum_decrypt(encrypted_data, key)`: base64-decode, split off the
12-byte nonce and 16-byte tag by fixed offsets, AES-GCM-decrypt, UTF-8-decode
the plaintext.  Only the cipher-core failure (`InvalidTag`) is wrapped by the
`try/except` into the fixed `ValueError`; the constructor validations of
`algorithms.AES` / `modes.GCM` and the final `plaintext.decode("utf-8")`
happen outside the `try` block and surface as their own exceptions. -/
def quantum_decrypt (A : AEADScheme) (encrypted_data : String) (key : List Nat) :
    Except PyErr String :=
  match b64DecodeBytes encrypted_data.data with
  | none => .error .binasciiError
  | some encrypted_payload =>
    let nonce := encrypted_payload.take 12
    let tag := (encrypted_payload.drop 12).take 16
    let ciphertext := encrypted_payload.drop 28
    if ¬ aesKeySizeOk key then .error (.valueError (aesKeyMsg key.length))
    else if nonce.length < 8 ∨ 128 < nonce.length then .error (.valueError gcmIvMsg)
    else if tag.length < 16 then .error (.valueError gcmTagMsg)
    else
      match A.dec key nonce tag ciphertext with
      | none => .error (.valueError decryptFailMsg)
      | some plaintext =>
        match utf8DecodeStr plaintext with
        | none => .error .unicodeDecodeError
        | some s => .ok s

/-! ### A concrete reference instantiation of the AEAD boundary

`refAEAD` is an executable stand-in for the external AES-GCM cipher core that
satisfies the same boundary contract (`AEADCorrect`, `AEADWellFormed`); it
exists so that witnesses and counterexamples can run the envelope code of the
repository on concrete inputs. -/

/-- Key/nonce-derived stream byte of the reference scheme. -/
def refMask (key nonce : List Nat) : Nat :=
  (key.sum * 3 + nonce.sum * 5 + 7) % 256

/-- Stream cipher of the reference scheme: XOR with a key/nonce byte. -/
def refStream (key nonce d : List Nat) : List Nat :=
  d.map (fun b => b ^^^ refMask key nonce)

/-- 16-byte tag of the reference scheme, binding key, nonce and ciphertext. -/
def refTag (key nonce ct : List Nat) : List Nat :=
  List.replicate 16 ((ct.sum + refMask key nonce * 31 + ct.length) % 256)

/-- Executable reference AEAD scheme. -/
def refAEAD : AEADScheme where
  enc key nonce d := (refStream key nonce d, refTag key nonce (refStream key nonce d))
  dec key nonce tag ct := if tag = refTag key nonce ct then some (refStream key nonce ct) else none

/-- The reference scheme decrypts its own encryptions. -/
theorem refAEAD_correct : AEADCorrect refAEAD := by
  intro key nonce d
  simp only [refAEAD, if_true]
  unfold refStream
  have hmap : ∀ l : List Nat,
      List.map (fun b => b ^^^ refMask key nonce)
        (List.map (fun b => b ^^^ refMask key nonce) l) = l := by
    intro l
    induction l with
    | nil => rfl
    | cons a t ih =>
      simp only [List.map_cons, ih, List.cons.injEq, and_true]
      rw [Nat.xor_assoc, Nat.xor_self, Nat.xor_zero]
  rw [hmap]

/-- XOR with a byte-sized mask preserves byte-sized values. -/
theorem xor_mask_lt_256 (b m : Nat) (hb : b < 256) (hm : m < 256) : b ^^^ m < 256 :=
  Nat.xor_lt_two_pow (n := 8) hb hm

/-- The reference scheme meets the AES-GCM shape contract. -/
theorem refAEAD_wellFormed : AEADWellFormed refAEAD := by
  intro key nonce d hd
  refine ⟨List.length_map d _, List.length_replicate 16 _, ?_, ?_⟩
  · intro b hb
    simp only [refAEAD, refStream, List.mem_map] at hb
    obtain ⟨a, ha, rfl⟩ := hb
    exact xor_mask_lt_256 a _ (hd a ha) (Nat.mod_lt _ (by omega))
  · intro b hb
    simp only [refAEAD, refTag, List.mem_replicate] at hb
    rw [hb.2]
    exact Nat.mod_lt _ (by omega)

/-! ### Token-bucket rate limiter (`RateLimiter` in `src/quantum_api/endpoint.py`)

Python float arithmetic is modelled exactly over `ℚ`.  The monotonic-clock
reads are replaced by the elapsed time between consecutive `acquire` calls,
passed as an explicit non-negative parameter; `last_update` is thereby folded
into the call sequence. -/

/-- State of `RateLimiter`: `tokens_per_second`, `max_tokens`, `tokens`. -/
structure RateLimiter where
  tokens_per_second : ℚ
  max_tokens : ℚ
  tokens : ℚ
deriving DecidableEq

/-- Model of `RateLimiter.__init__(requests_per_minute)`. -/
def mkRateLimiter (requests_per_minute : Nat) : RateLimiter :=
  { tokens_per_second := (requests_per_minute : ℚ) / 60
    max_tokens := (requests_per_minute : ℚ)
    tokens := (requests_per_minute : ℚ) }

/-- Model of `RateLimiter.acquire`: refill by elapsed time, clamp at `max_tokens`,
admit (consuming one token) iff at least one token is available. -/
def RateLimiter.acquire (rl : RateLimiter) (elapsed : ℚ) : Bool × RateLimiter :=
  let refilled := min (rl.tokens + elapsed * rl.tokens_per_second) rl.max_tokens
  if 1 ≤ refilled then (true, { rl with tokens := refilled - 1 })
  else (false, { rl with tokens := refilled })

/-- Run a sequence of `acquire` calls; `elapsed` values are the times between
consecutive calls.  Returns the admission verdicts and the final state. -/
def runAcquires (rl : RateLimiter) : List ℚ → List Bool × RateLimiter
  | [] => ([], rl)
  | e :: es =>
    let p := rl.acquire e
    let q := runAcquires p.2 es
    (p.1 :: q.1, q.2)

/-- The `acquire` call never changes the configured rate or capacity. -/
theorem acquire_config (rl : RateLimiter) (e : ℚ) :
    ((rl.acquire e).2.tokens_per_second = rl.tokens_per_second ∧
      (rl.acquire e).2.max_tokens = rl.max_tokens) := by
  unfold RateLimiter.acquire
  dsimp only
  split <;> exact ⟨rfl, rfl⟩

/-- One `acquire` preserves the bucket bounds `0 ≤ tokens ≤ max_tokens`. -/
theorem acquire_bounds (rl : RateLimiter) (e : ℚ) (he : 0 ≤ e)
    (hrate : 0 ≤ rl.tokens_per_second) (hcap : 1 ≤ rl.max_tokens)
    (h0 : 0 ≤ rl.tokens) :
    0 ≤ (rl.acquire e).2.tokens ∧ (rl.acquire e).2.tokens ≤ (rl.acquire e).2.max_tokens := by
  have hre : 0 ≤ e * rl.tokens_per_second := mul_nonneg he hrate
  unfold RateLimiter.acquire
  dsimp only
  set refilled := min (rl.tokens + e * rl.tokens_per_second) rl.max_tokens with hdef
  have hrl : 0 ≤ refilled := le_min (by linarith) (by linarith)
  have hru : refilled ≤ rl.max_tokens := min_le_right _ _
  split
  · rename_i hge
    constructor
    · dsimp only; linarith
    · dsimp only; linarith
  · exact ⟨hrl, hru⟩

/-- Bucket bounds hold after any sequence of calls with non-negative elapsed
times, from any in-bounds starting state. -/
theorem runAcquires_bounds : ∀ (es : List ℚ) (rl : RateLimiter),
    (∀ e ∈ es, 0 ≤ e) → 0 ≤ rl.tokens_per_second → 1 ≤ rl.max_tokens →
    0 ≤ rl.tokens → rl.tokens ≤ rl.max_tokens →
    (0 ≤ (runAcquires rl es).2.tokens ∧
      (runAcquires rl es).2.tokens ≤ (runAcquires rl es).2.max_tokens ∧
      (runAcquires rl es).2.max_tokens = rl.max_tokens ∧
      (runAcquires rl es).2.tokens_per_second = rl.tokens_per_second)
  | [], rl, _, _, _, h0, h1 => ⟨h0, h1, rfl, rfl⟩
  | e :: es, rl, he, hrate, hcap, h0, h1 => by
    have heh : 0 ≤ e := he e (by simp)
    have hb := acquire_bounds rl e heh hrate hcap h0
    have hcfg := acquire_config rl e
    have ih := runAcquires_bounds es (rl.acquire e).2 (fun x hx => he x (by simp [hx]))
      (by rw [hcfg.1]; exact hrate) (by rw [hcfg.2]; exact hcap)
      hb.1 hb.2
    unfold runAcquires
    dsimp only
    refine ⟨ih.1, ih.2.1, ?_, ?_⟩
    · rw [ih.2.2.1, hcfg.2]
    · rw [ih.2.2.2, hcfg.1]

/-- An admitted call consumes one whole token: the number of admissions is
bounded by the starting tokens plus the total refill over the sequence. -/
theorem runAcquires_count_bound : ∀ (es : List ℚ) (rl : RateLimiter),
    (∀ e ∈ es, 0 ≤ e) → 0 ≤ rl.tokens_per_second → 1 ≤ rl.max_tokens →
    0 ≤ rl.tokens → rl.tokens ≤ rl.max_tokens →
    ((runAcquires rl es).1.count true : ℚ) + (runAcquires rl es).2.tokens ≤
      rl.tokens + es.sum * rl.tokens_per_second
  | [], rl, _, _, _, _, _ => by
    simp only [runAcquires, List.count_nil, List.sum_nil, Nat.cast_zero, zero_mul, zero_add,
      add_zero, le_refl]
  | e :: es, rl, he, hrate, hcap, h0, h1 => by
    have heh : 0 ≤ e := he e (by simp)
    have hcfg := acquire_config rl e
    have hb := acquire_bounds rl e heh hrate hcap h0
    have ih := runAcquires_count_bound es (rl.acquire e).2 (fun x hx => he x (by simp [hx]))
      (by rw [hcfg.1]; exact hrate) (by rw [hcfg.2]; exact hcap) hb.1 hb.2
    rw [hcfg.1] at ih
    have hmin := min_le_left (rl.tokens + e * rl.tokens_per_second) rl.max_tokens
    have hstep1 : (rl.acquire e).1 = true →
        (rl.acquire e).2.tokens + 1 ≤ rl.tokens + e * rl.tokens_per_second := by
      unfold RateLimiter.acquire
      dsimp only
      split
      · intro _
        dsimp only
        linarith
      · intro h
        exact absurd h (by simp)
    have hstep2 : (rl.acquire e).1 = false →
        (rl.acquire e).2.tokens ≤ rl.tokens + e * rl.tokens_per_second := by
      unfold RateLimiter.acquire
      dsimp only
      split
      · intro h
        exact absurd h (by simp)
      · intro _
        dsimp only
        linarith
    unfold runAcquires
    dsimp only
    rw [List.sum_cons, add_mul]
    cases hadm : (rl.acquire e).1 with
    | false =>
      have hs := hstep2 hadm
      have hc : List.count true (false :: (runAcquires (rl.acquire e).2 es).1) =
          List.count true (runAcquires (rl.acquire e).2 es).1 := by
        simp [List.count_cons]
      rw [hc]
      linarith
    | true =>
      have hs := hstep1 hadm
      have hc : List.count true (true :: (runAcquires (rl.acquire e).2 es).1) =
          List.count true (runAcquires (rl.acquire e).2 es).1 + 1 := by
        simp [List.count_cons]
      rw [hc]
      push_cast
      linarith

/-! ### Dispatch pipeline (`endpoint` decorator's `wrapper` in `src/quantum_api/endpoint.py`)

The wrapper's external collaborators are parameters of the model:
* `validate_jwt` (imported from `quantum_encryption`, not defined under
  `src/`) — modelled from the spec: `validate(token) -> Principal | null`;
* `require_mfa` (imported from `multi_factor_auth`, not defined under
  `src/`) — modelled from the spec: `verify(principal) -> bool`;
* `log_request` (imported from `quantum_api.logging`, not present under
  `src/`) — modelled from the spec: a fire-and-forget sink accepting one
  access-log record per invocation and never failing the call; the model
  collects emitted records in a list;
* the pydantic schema calls — modelled as the spec's validation capability:
  a function returning either a validated value or field errors;
* the handler `func` — its behaviour on this call is given as a
  `HandlerOutcome` (normal return, `APIError` raise, or other exception).
`APIError.timestamp` and `APIError.error_id` (wall clock and `uuid4`) are
nondeterministic environment values and are not part of the model;
`error_code` keeps its `"ERR_" + str(status_code)` default. -/

/-- Resolved caller identity (spec §3 Principal). -/
structure Principal where
  id : Nat
  active : Bool
  roles : List String
deriving DecidableEq

/-- The request object consulted by the wrapper. -/
structure Request where
  headers : List (String × String)
  method : String
  jsonData : String
  queryParams : String
deriving DecidableEq

/-- Model of `APIError(status_code, detail, error_code)` of `src/quantum_api/response.py`. -/
structure APIError where
  status_code : Nat
  detail : String
  error_code : String
deriving DecidableEq

/-- Construction of `APIError` with the default `error_code = "ERR_" + str(status)`. -/
def mkAPIError (status_code : Nat) (detail : String) : APIError :=
  { status_code := status_code, detail := detail,
    error_code := "ERR_" ++ toString status_code }

/-- One access-log record as passed to `log_request`. -/
structure LogRecord where
  success : Bool
  endpoint : String
  method : String
  status_code : Nat
  error : Option String
  user_id : Option Nat
deriving DecidableEq

deriving instance DecidableEq for Except

/-- Behaviour of the wrapped handler on the call under consideration. -/
inductive HandlerOutcome where
  | ok (resp : String)
  | apiError (e : APIError)
  | exn (msg : String)
deriving DecidableEq

/-- Per-endpoint registration data consulted by the wrapper (`route`,
`auth_required`, `required_roles`, `request_schema`, `response_schema`;
`methods`, `summary` and `description` only feed documentation attributes
and are omitted). -/
structure EndpointConfig where
  route : String
  auth_required : Bool
  required_roles : Option (List String)
  request_schema : Option (String → Except String Unit)
  response_schema : Option (String → Bool)

/-- Model of `request.headers.get(key, "")`. -/
def getHeaderD (headers : List (String × String)) (key : String) : String :=
  match headers.find? (fun p => p.1 == key) with
  | some p => p.2
  | none => ""

/-- The authentication flow of the wrapper (runs only when `auth_required`):
scheme check, `validate_jwt`, liveness, `require_mfa`, role intersection.
Returns the resolved principal (if any) or the raised `APIError`, together
with a flag recording whether `validate_jwt` was invoked. -/
def authGate (cfg : EndpointConfig) (validate_jwt : String → Option Principal)
    (require_mfa : Principal → Bool) (req : Request) :
    Except APIError (Option Principal) × Bool :=
  if cfg.auth_required then
    let auth_header := getHeaderD req.headers ("Authorization")
    if auth_header.take 7 ≠ "Bearer " then
      (.error (mkAPIError 401 ("Invalid auth scheme")), false)
    else
      match validate_jwt (auth_header.drop 7) with
      | none => (.error (mkAPIError 401 ("Invalid credentials")), true)
      | some user =>
        if ¬ user.active then (.error (mkAPIError 401 ("Invalid credentials")), true)
        else if ¬ require_mfa user then (.error (mkAPIError 403 ("MFA required")), true)
        else
          match cfg.required_roles with
          | some rs =>
            if rs ≠ [] ∧ rs.any (fun r => user.roles.contains r) = false then
              (.error (mkAPIError 403 ("Insufficient permissions")), true)
            else (.ok (some user), true)
          | none => (.ok (some user), true)
  else (.ok none, false)

/-- The request-schema validation step: on `POST`/`PUT`/`PATCH` the JSON body
is validated, otherwise the query parameters; pydantic `ValidationError`
becomes a 422 `APIError` carrying the field errors. -/
def validationGate (cfg : EndpointConfig) (req : Request) : Except APIError Unit :=
  match cfg.request_schema with
  | some schema =>
    let payload :=
      if req.method = "POST" ∨ req.method = "PUT" ∨ req.method = "PATCH" then req.jsonData
      else req.queryParams
    match schema payload with
    | .ok _ => .ok ()
    | .error msgs => .error (mkAPIError 422 msgs)
  | none => .ok ()

/-- The `try/except` block around the handler invocation: response-schema
check, success log, `except APIError` log-and-reraise, `except Exception`
log-and-wrap into the generic 500. Returns the outcome and the emitted log
records. -/
def handlerPhase (cfg : EndpointConfig) (method : String) (user : Option Principal)
    (handler : HandlerOutcome) : Except APIError String × List LogRecord :=
  let uid := user.map Principal.id
  match handler with
  | .ok resp =>
    match cfg.response_schema with
    | some responseOk =>
      if responseOk resp = false then
        (.error (mkAPIError 500 ("Response validation failed")),
          [{ success := false, endpoint := cfg.route, method := method, status_code := 500,
             error := some ("Response validation failed"), user_id := uid }])
      else
        (.ok resp,
          [{ success := true, endpoint := cfg.route, method := method, status_code := 200,
             error := none, user_id := uid }])
    | none =>
      (.ok resp,
        [{ success := true, endpoint := cfg.route, method := method, status_code := 200,
           error := none, user_id := uid }])
  | .apiError e =>
    (.error e,
      [{ success := false, endpoint := cfg.route, method := method, status_code := e.status_code,
         error := some e.detail, user_id := uid }])
  | .exn msg =>
    (.error (mkAPIError 500 ("Internal server error")),
      [{ success := false, endpoint := cfg.route, method := method, status_code := 500,
         error := some msg, user_id := uid }])

/-- Observable outcome of one wrapped call: the returned value or raised
`APIError`, the emitted log records, the limiter state after the call, the
resolved principal, and whether the handler and `validate_jwt` ran. -/
structure CallOutcome where
  result : Except APIError String
  logs : List LogRecord
  limiter : RateLimiter
  user : Option Principal
  handlerCalled : Bool
  validateCalled : Bool
deriving DecidableEq

/-- The `wrapper` closure produced by the `endpoint` decorator: request
presence check, rate limiting, authentication, request validation, handler
invocation with logging.  `request` is `kwargs.get("request") or args[0]`,
`elapsed` is the monotonic-clock time since the limiter's `last_update`. -/
def endpoint_wrapper (cfg : EndpointConfig) (validate_jwt : String → Option Principal)
    (require_mfa : Principal → Bool) (limiter : RateLimiter) (elapsed : ℚ)
    (request : Option Request) (handler : HandlerOutcome) : CallOutcome :=
  match request with
  | none =>
    { result := .error (mkAPIError 500 ("Request context missing")), logs := [],
      limiter := limiter, user := none, handlerCalled := false, validateCalled := false }
  | some req =>
    let acq := limiter.acquire elapsed
    if acq.1 = false then
      { result := .error (mkAPIError 429 ("Too many requests")), logs := [],
        limiter := acq.2, user := none, handlerCalled := false, validateCalled := false }
    else
      match authGate cfg validate_jwt require_mfa req with
      | (.error e, vc) =>
        { result := .error e, logs := [], limiter := acq.2, user := none,
          handlerCalled := false, validateCalled := vc }
      | (.ok user, vc) =>
        match validationGate cfg req with
        | .error e =>
          { result := .error e, logs := [], limiter := acq.2, user := user,
            handlerCalled := false, validateCalled := vc }
        | .ok _ =>
          let hp := handlerPhase cfg req.method user handler
          { result := hp.1, logs := hp.2, limiter := acq.2, user := user,
            handlerCalled := true, validateCalled := vc }

/-! ### Envelope evaluation lemmas -/

/-- With a valid key and nonce, `quantum_encrypt` returns the base64 text of
`nonce ∥ tag ∥ ciphertext`. -/
theorem quantum_encrypt_ok (A : AEADScheme) (data : PyData) (key nonce : List Nat)
    (hkey : key.length = 32) (hn8 : 8 ≤ nonce.length) (hn128 : nonce.length ≤ 128) :
    quantum_encrypt A data key nonce =
      .ok (String.mk (b64EncodeBytes (nonce ++ (A.enc key nonce data.toBytes).2 ++
        (A.enc key nonce data.toBytes).1))) := by
  unfold quantum_encrypt
  have hks : aesKeySizeOk key = true := by
    simp [aesKeySizeOk, hkey]
  rw [if_neg (by simp [hks]), if_neg (by omega)]

/-- Decrypting a well-formed envelope `nonce ∥ tag ∥ ciphertext` with a
256-bit key reaches the cipher core and then the UTF-8 decode. -/
theorem quantum_decrypt_payload (A : AEADScheme) (key nonce tag ct : List Nat)
    (hkey : key.length = 32) (hnonce : nonce.length = 12) (htag : tag.length = 16)
    (hnb : ∀ b ∈ nonce, b < 256) (htb : ∀ b ∈ tag, b < 256) (hcb : ∀ b ∈ ct, b < 256) :
    quantum_decrypt A (String.mk (b64EncodeBytes (nonce ++ tag ++ ct))) key =
      match A.dec key nonce tag ct with
      | none => .error (.valueError decryptFailMsg)
      | some plaintext =>
        match utf8DecodeStr plaintext with
        | none => .error PyErr.unicodeDecodeError
        | some s => .ok s := by
  have hall : ∀ b ∈ nonce ++ tag ++ ct, b < 256 := by
    intro b hb
    rcases List.mem_append.1 hb with hb1 | hb2
    · rcases List.mem_append.1 hb1 with hb3 | hb4
      · exact hnb b hb3
      · exact htb b hb4
    · exact hcb b hb2
  have hdecode := b64DecodeBytes_encode (nonce ++ tag ++ ct) hall
  unfold quantum_decrypt
  rw [show (String.mk (b64EncodeBytes (nonce ++ tag ++ ct))).data =
    b64EncodeBytes (nonce ++ tag ++ ct) from rfl]
  rw [hdecode]
  dsimp only
  have happ : nonce ++ tag ++ ct = nonce ++ (tag ++ ct) := List.append_assoc nonce tag ct
  have htake : (nonce ++ tag ++ ct).take 12 = nonce := by
    rw [happ]
    exact List.take_left' hnonce
  have hdrop12 : (nonce ++ tag ++ ct).drop 12 = tag ++ ct := by
    rw [happ]
    exact List.drop_left' hnonce
  have htake16 : ((nonce ++ tag ++ ct).drop 12).take 16 = tag := by
    rw [hdrop12]
    exact List.take_left' htag
  have hdrop28 : (nonce ++ tag ++ ct).drop 28 = ct := by
    have h1 : ((nonce ++ tag ++ ct).drop 12).drop 16 = ct := by
      rw [hdrop12]
      exact List.drop_left' htag
    rw [List.drop_drop] at h1
    exact h1
  have hks : aesKeySizeOk key = true := by
    simp [aesKeySizeOk, hkey]
  rw [htake, htake16, hdrop28]
  rw [if_neg (by simp [hks]), if_neg (by rw [hnonce]; omega), if_neg (by rw [htag]; omega)]

/-! ### Claims about the envelope -/

/-- Claim C1 (amended).  For every payload and every 256-bit key (nonce drawn
fresh by `os.urandom(12)`), `quantum_decrypt(quantum_encrypt(p, k), k)`
returns the UTF-8 *text* of the payload: the original string for `str`
input, the decoded text for UTF-8-valid `bytes` input, and a
`UnicodeDecodeError` for `bytes` input that is not valid UTF-8 — the byte
envelope itself is recovered exactly, but the final
`plaintext.decode("utf-8")` means the function never returns `bytes`. -/
theorem claim_C1_roundtrip_amended (A : AEADScheme) (hc : AEADCorrect A)
    (hw : AEADWellFormed A) (data : PyData) (key nonce : List Nat) (hkey : key.length = 32)
    (hnonce : nonce.length = 12) (hnb : ∀ b ∈ nonce, b < 256)
    (hdb : ∀ b ∈ data.toBytes, b < 256) (env : String)
    (henc : quantum_encrypt A data key nonce = Except.ok env) :
    (quantum_decrypt A env key =
      match utf8DecodeStr data.toBytes with
      | none => Except.error PyErr.unicodeDecodeError
      | some s => Except.ok s) ∧
    (∀ s, data = PyData.str s → quantum_decrypt A env key = Except.ok s) := by
  rw [quantum_encrypt_ok A data key nonce hkey (by omega) (by omega)] at henc
  have henv := Except.ok.inj henc
  subst henv
  obtain ⟨hlen_ct, hlen_tag, hvb_ct, hvb_tag⟩ := hw key nonce data.toBytes hdb
  have hmain := quantum_decrypt_payload A key nonce (A.enc key nonce data.toBytes).2
    (A.enc key nonce data.toBytes).1 hkey hnonce hlen_tag hnb hvb_tag hvb_ct
  rw [hc key nonce data.toBytes] at hmain
  constructor
  · exact hmain
  · intro s hdata
    subst hdata
    rw [hmain]
    simp only [PyData.toBytes]
    rw [utf8DecodeStr_encode]

/-- Concrete 256-bit key for witnesses. -/
def demoKey : List Nat := List.replicate 32 7

/-- Concrete 12-byte nonce for witnesses. -/
def demoNonce : List Nat := List.range 12

/-- Envelope produced by encrypting the string "hi" with the reference
scheme under `demoKey` / `demoNonce`. -/
def demoEnv : String :=
  match quantum_encrypt refAEAD (PyData.str ("hi")) demoKey demoNonce with
  | .ok e => e
  | .error _ => ""

theorem claim_C1_roundtrip_amended_witness :
    quantum_decrypt refAEAD demoEnv demoKey = Except.ok ("hi") :=
  (claim_C1_roundtrip_amended refAEAD refAEAD_correct refAEAD_wellFormed (PyData.str ("hi"))
    demoKey demoNonce (by decide) (by decide) (by decide) (by decide) demoEnv (by rfl)).2
    ("hi") rfl

/-- Envelope produced by encrypting the byte payload `b"\xff"` (not valid
UTF-8) with the reference scheme. -/
def demoBadEnv : String :=
  match quantum_encrypt refAEAD (PyData.bytes [255]) demoKey demoNonce with
  | .ok e => e
  | .error _ => ""

/-- Claim C1 (counterexample to the claim as stated).  For the byte payload
`b"\xff"` and a 256-bit key, encryption succeeds but
`quantum_decrypt(quantum_encrypt(p, k), k)` raises `UnicodeDecodeError`
instead of returning `p`: the final `plaintext.decode("utf-8")` fails on
bytes that are not valid UTF-8, so encrypt-then-decrypt is not the identity
on byte payloads. -/
theorem claim_C1_counterexample :
    quantum_encrypt refAEAD (PyData.bytes [255]) demoKey demoNonce = Except.ok demoBadEnv ∧
    quantum_decrypt refAEAD demoBadEnv demoKey = Except.error PyErr.unicodeDecodeError := by
  constructor
  · rfl
  · rfl

/-- Claim C10.  For every payload (string input UTF-8-encoded first) and every
256-bit key, the base64-decoded envelope produced by `quantum_encrypt` has
length exactly `28 + (byte length of the plaintext)`: 12-byte nonce, 16-byte
tag, and a ciphertext exactly as long as the plaintext — so the envelope
length reveals the plaintext length. -/
theorem claim_C10_envelope_length (A : AEADScheme) (hw : AEADWellFormed A) (data : PyData)
    (key nonce : List Nat) (hkey : key.length = 32) (hnonce : nonce.length = 12)
    (hnb : ∀ b ∈ nonce, b < 256) (hdb : ∀ b ∈ data.toBytes, b < 256) (env : String)
    (henc : quantum_encrypt A data key nonce = Except.ok env) :
    (b64DecodeBytes env.data).map List.length = some (28 + data.toBytes.length) := by
  rw [quantum_encrypt_ok A data key nonce hkey (by omega) (by omega)] at henc
  have henv := Except.ok.inj henc
  subst henv
  obtain ⟨hlen_ct, hlen_tag, hvb_ct, hvb_tag⟩ := hw key nonce data.toBytes hdb
  have hall : ∀ b ∈ nonce ++ (A.enc key nonce data.toBytes).2 ++
      (A.enc key nonce data.toBytes).1, b < 256 := by
    intro b hb
    rcases List.mem_append.1 hb with hb1 | hb2
    · rcases List.mem_append.1 hb1 with hb3 | hb4
      · exact hnb b hb3
      · exact hvb_tag b hb4
    · exact hvb_ct b hb2
  rw [show (String.mk (b64EncodeBytes (nonce ++ (A.enc key nonce data.toBytes).2 ++
    (A.enc key nonce data.toBytes).1))).data = b64EncodeBytes (nonce ++
    (A.enc key nonce data.toBytes).2 ++ (A.enc key nonce data.toBytes).1) from rfl]
  rw [b64DecodeBytes_encode _ hall]
  show some ((nonce ++ (A.enc key nonce data.toBytes).2 ++
    (A.enc key nonce data.toBytes).1).length) = some (28 + data.toBytes.length)
  have hl : (nonce ++ (A.enc key nonce data.toBytes).2 ++
      (A.enc key nonce data.toBytes).1).length = 28 + data.toBytes.length := by
    simp only [List.length_append, hnonce, hlen_tag, hlen_ct]
  rw [hl]

theorem claim_C10_envelope_length_witness :
    (b64DecodeBytes demoEnv.data).map List.length =
      some (28 + (PyData.str ("hi")).toBytes.length) :=
  claim_C10_envelope_length refAEAD refAEAD_wellFormed (PyData.str ("hi")) demoKey demoNonce
    (by decide) (by decide) (by decide) (by decide) demoEnv (by rfl)

/-- Claim C5 (counterexample to the claim as stated).  The empty envelope
(base64-decoded length 0 < 28) makes `quantum_decrypt` fail — but with the
`modes.GCM` constructor's IV-length `ValueError`, raised before the
`try/except` block, not with the designated decryption error of the
`except` branch. -/
theorem claim_C5_counterexample :
    quantum_decrypt refAEAD ("") (List.replicate 32 0) =
      Except.error (PyErr.valueError gcmIvMsg) ∧ gcmIvMsg ≠ decryptFailMsg := by
  constructor
  · rfl
  · decide

/-- Claim C5 (amended).  For every 256-bit key and every envelope whose
base64-decoded length is shorter than the 28-byte fixed header,
`quantum_decrypt` always fails before reaching the cipher core — but the
failure is the `modes.GCM` argument-validation `ValueError` (IV-length or
tag-length message), raised outside the wrapping `try/except`, not the
designated decryption error. -/
theorem claim_C5_short_envelope_amended (A : AEADScheme) (s : String) (key payload : List Nat)
    (hkey : key.length = 32) (hdec : b64DecodeBytes s.data = some payload)
    (hshort : payload.length < 28) :
    quantum_decrypt A s key = Except.error (PyErr.valueError gcmIvMsg) ∨
    quantum_decrypt A s key = Except.error (PyErr.valueError gcmTagMsg) := by
  unfold quantum_decrypt
  rw [hdec]
  dsimp only
  have hks : aesKeySizeOk key = true := by
    simp [aesKeySizeOk, hkey]
  rw [if_neg (by simp [hks])]
  by_cases hn : payload.length < 8
  · left
    rw [if_pos (Or.inl (by rw [List.length_take]; omega))]
  · right
    rw [if_neg (by rw [List.length_take]; omega),
      if_pos (by rw [List.length_take, List.length_drop]; omega)]

theorem claim_C5_short_envelope_amended_witness :
    quantum_decrypt refAEAD ("") (List.replicate 32 0) =
      Except.error (PyErr.valueError gcmIvMsg) ∨
    quantum_decrypt refAEAD ("") (List.replicate 32 0) =
      Except.error (PyErr.valueError gcmTagMsg) :=
  claim_C5_short_envelope_amended refAEAD ("") (List.replicate 32 0) [] (by decide) (by rfl)
    (by decide)

/-- Claim C9.  Whenever `quantum_decrypt` reaches the cipher core and tag
verification fails — whether because the key is wrong or because the
envelope was tampered with — the raised error is identical: the single
`except` branch raises the same `ValueError` with the same message, so the
caller cannot distinguish key mismatch from tampering. -/
theorem claim_C9_uniform_failure (A : AEADScheme) (key1 key2 : List Nat) (s1 s2 : String)
    (payload1 payload2 : List Nat) (hk1 : key1.length = 32) (hk2 : key2.length = 32)
    (hd1 : b64DecodeBytes s1.data = some payload1) (hd2 : b64DecodeBytes s2.data = some payload2)
    (hl1 : 28 ≤ payload1.length) (hl2 : 28 ≤ payload2.length)
    (hf1 : A.dec key1 (payload1.take 12) ((payload1.drop 12).take 16) (payload1.drop 28) = none)
    (hf2 : A.dec key2 (payload2.take 12) ((payload2.drop 12).take 16) (payload2.drop 28) = none) :
    quantum_decrypt A s1 key1 = Except.error (PyErr.valueError decryptFailMsg) ∧
    quantum_decrypt A s1 key1 = quantum_decrypt A s2 key2 := by
  have main : ∀ (key : List Nat) (s : String) (payload : List Nat), key.length = 32 →
      b64DecodeBytes s.data = some payload → 28 ≤ payload.length →
      A.dec key (payload.take 12) ((payload.drop 12).take 16) (payload.drop 28) = none →
      quantum_decrypt A s key = Except.error (PyErr.valueError decryptFailMsg) := by
    intro key s payload hk hd hl hf
    unfold quantum_decrypt
    rw [hd]
    dsimp only
    rw [if_neg (by simp [aesKeySizeOk, hk]), if_neg (by rw [List.length_take]; omega),
      if_neg (by rw [List.length_take, List.length_drop]; omega), hf]
  have h1 := main key1 s1 payload1 hk1 hd1 hl1 hf1
  have h2 := main key2 s2 payload2 hk2 hd2 hl2 hf2
  exact ⟨h1, by rw [h1, h2]⟩

/-- The byte payload of `demoEnv` before base64 encoding. -/
def demoPayload : List Nat :=
  demoNonce ++ (refAEAD.enc demoKey demoNonce (PyData.str ("hi")).toBytes).2 ++
    (refAEAD.enc demoKey demoNonce (PyData.str ("hi")).toBytes).1

/-- The list `demoPayload` with the last ciphertext byte bit-flipped (tampering). -/
def demoTampered : List Nat :=
  demoPayload.take 29 ++ ((demoPayload.drop 29).map (fun b => b ^^^ 1))

theorem claim_C9_uniform_failure_witness :
    quantum_decrypt refAEAD demoEnv (List.replicate 32 8) =
      Except.error (PyErr.valueError decryptFailMsg) ∧
    quantum_decrypt refAEAD demoEnv (List.replicate 32 8) =
      quantum_decrypt refAEAD (String.mk (b64EncodeBytes demoTampered)) demoKey :=
  claim_C9_uniform_failure refAEAD (List.replicate 32 8) demoKey demoEnv
    (String.mk (b64EncodeBytes demoTampered)) demoPayload demoTampered
    (by decide) (by decide) (by rfl) (by rfl) (by decide) (by decide) (by decide) (by decide)

/-! ### Claims about the rate limiter -/

/-- Claim C3.  For every `RateLimiter` created with a positive requests-per-minute
capacity and every finite sequence of `acquire()` calls with arbitrary
non-negative elapsed times, `0 ≤ tokens ≤ capacity` holds after every call
(stated for every prefix of the call sequence). -/
theorem claim_C3_tokens_bounded (requests_per_minute : Nat) (hr : 0 < requests_per_minute)
    (es : List ℚ) (he : ∀ e ∈ es, 0 ≤ e) (i : Nat) :
    0 ≤ (runAcquires (mkRateLimiter requests_per_minute) (es.take i)).2.tokens ∧
    (runAcquires (mkRateLimiter requests_per_minute) (es.take i)).2.tokens ≤
      (mkRateLimiter requests_per_minute).max_tokens := by
  have hone : (1 : ℚ) ≤ (requests_per_minute : ℚ) := by
    exact_mod_cast hr
  have hb := runAcquires_bounds (es.take i) (mkRateLimiter requests_per_minute)
    (fun e hx => he e (List.mem_of_mem_take hx))
    (by unfold mkRateLimiter; positivity)
    (by unfold mkRateLimiter; exact hone)
    (by unfold mkRateLimiter; positivity)
    (by unfold mkRateLimiter; exact le_refl _)
  refine ⟨hb.1, ?_⟩
  have h2 := hb.2.1
  rw [hb.2.2.1] at h2
  exact h2

theorem claim_C3_tokens_bounded_witness :
    0 ≤ (runAcquires (mkRateLimiter 2) (([0, 30] : List ℚ).take 2)).2.tokens ∧
    (runAcquires (mkRateLimiter 2) (([0, 30] : List ℚ).take 2)).2.tokens ≤
      (mkRateLimiter 2).max_tokens :=
  claim_C3_tokens_bounded 2 (by decide) [0, 30] (by decide) 2

/-- Claim C4 (counterexample to the claim as stated).  A bucket configured for
2 requests/minute (refill 1 token per 30 s) admits 3 calls in a 30-second
span — two back-to-back calls from the initial burst capacity plus one more
after 30 s of refill — so a rolling 60-second window can admit more than `R`
calls even though the sequence demands admissions faster than the refill
rate supplies them. -/
theorem claim_C4_counterexample :
    (runAcquires (mkRateLimiter 2) ([0, 0, 30] : List ℚ)).1.count true = 3 ∧
    ([0, 0, 30] : List ℚ).sum ≤ 60 ∧ 2 < 3 := by
  refine ⟨?_, by norm_num, by norm_num⟩
  norm_num [runAcquires, RateLimiter.acquire, mkRateLimiter, min_def]

/-- Claim C4 (amended).  A bucket configured for `R` requests/minute admits at
most `R` calls across any burst whose total elapsed time refills less than
one token (in particular, calls arriving with zero elapsed time): the
admission count never exceeds the initial `R` tokens plus the total refill. -/
theorem claim_C4_burst_bound_amended (requests_per_minute : Nat)
    (hr : 0 < requests_per_minute) (es : List ℚ) (he : ∀ e ∈ es, 0 ≤ e)
    (hfast : es.sum * ((requests_per_minute : ℚ) / 60) < 1) :
    (runAcquires (mkRateLimiter requests_per_minute) es).1.count true ≤
      requests_per_minute := by
  have hone : (1 : ℚ) ≤ (requests_per_minute : ℚ) := by
    exact_mod_cast hr
  have hbound := runAcquires_count_bound es (mkRateLimiter requests_per_minute) he
    (by unfold mkRateLimiter; positivity)
    (by unfold mkRateLimiter; exact hone)
    (by unfold mkRateLimiter; positivity)
    (by unfold mkRateLimiter; exact le_refl _)
  have hb := runAcquires_bounds es (mkRateLimiter requests_per_minute) he
    (by unfold mkRateLimiter; positivity)
    (by unfold mkRateLimiter; exact hone)
    (by unfold mkRateLimiter; positivity)
    (by unfold mkRateLimiter; exact le_refl _)
  unfold mkRateLimiter at hbound
  dsimp only at hbound
  have hc : ((runAcquires (mkRateLimiter requests_per_minute) es).1.count true : ℚ) <
      (requests_per_minute : ℚ) + 1 := by
    have h0 := hb.1
    unfold mkRateLimiter at h0 ⊢
    linarith
  have hcn : (runAcquires (mkRateLimiter requests_per_minute) es).1.count true <
      requests_per_minute + 1 := by
    exact_mod_cast hc
  omega

theorem claim_C4_burst_bound_amended_witness :
    (runAcquires (mkRateLimiter 60) (List.replicate 61 (0 : ℚ))).1.count true ≤ 60 :=
  claim_C4_burst_bound_amended 60 (by decide) (List.replicate 61 (0 : ℚ)) (by decide)
    (by simp [List.sum_replicate])

/-! ### Claims about the dispatch pipeline -/

/-- A freshly configured bucket admits a call with zero elapsed time. -/
theorem mkRateLimiter_acquire_zero (rpm : Nat) (h : 1 ≤ rpm) :
    ((mkRateLimiter rpm).acquire 0).1 = true := by
  unfold RateLimiter.acquire mkRateLimiter
  dsimp only
  rw [if_pos ?hc]
  case hc =>
    have he : (rpm : ℚ) + 0 * ((rpm : ℚ) / 60) = (rpm : ℚ) := by ring
    rw [he, min_self]
    exact_mod_cast h

/-- The handler phase emits exactly one log record, carrying the resolved
status code and the principal id. -/
theorem handlerPhase_spec (cfg : EndpointConfig) (method : String) (user : Option Principal)
    (handler : HandlerOutcome) :
    (handlerPhase cfg method user handler).2.length = 1 ∧
    ∀ rec ∈ (handlerPhase cfg method user handler).2,
      rec.status_code = (match (handlerPhase cfg method user handler).1 with
        | .ok _ => 200
        | .error err => err.status_code) ∧
      rec.user_id = user.map Principal.id := by
  unfold handlerPhase
  cases handler with
  | ok resp =>
    dsimp only
    cases hrs : cfg.response_schema with
    | none =>
      refine ⟨rfl, ?_⟩
      intro rec hrec
      rw [List.mem_singleton] at hrec
      subst hrec
      exact ⟨rfl, rfl⟩
    | some responseOk =>
      dsimp only
      by_cases hok : responseOk resp = false
      · rw [if_pos hok]
        refine ⟨rfl, ?_⟩
        intro rec hrec
        rw [List.mem_singleton] at hrec
        subst hrec
        exact ⟨rfl, rfl⟩
      · rw [if_neg hok]
        refine ⟨rfl, ?_⟩
        intro rec hrec
        rw [List.mem_singleton] at hrec
        subst hrec
        exact ⟨rfl, rfl⟩
  | apiError e =>
    refine ⟨rfl, ?_⟩
    intro rec hrec
    rw [List.mem_singleton] at hrec
    subst hrec
    exact ⟨rfl, rfl⟩
  | exn msg =>
    refine ⟨rfl, ?_⟩
    intro rec hrec
    rw [List.mem_singleton] at hrec
    subst hrec
    exact ⟨rfl, rfl⟩

/-- Claim C8.  A call with no request context (`kwargs.get("request")` falsy and
no positional argument) fails immediately with the fixed 500
"Request context missing" error: the limiter state is untouched (no token
consumed), `validate_jwt` is never invoked, the handler never runs, and no
log record is emitted. -/
theorem claim_C8_missing_request (cfg : EndpointConfig)
    (validate_jwt : String → Option Principal) (require_mfa : Principal → Bool)
    (limiter : RateLimiter) (elapsed : ℚ) (handler : HandlerOutcome) :
    (endpoint_wrapper cfg validate_jwt require_mfa limiter elapsed none handler).result =
      Except.error (mkAPIError 500 ("Request context missing")) ∧
    (endpoint_wrapper cfg validate_jwt require_mfa limiter elapsed none handler).limiter =
      limiter ∧
    (endpoint_wrapper cfg validate_jwt require_mfa limiter elapsed none
      handler).validateCalled = false ∧
    (endpoint_wrapper cfg validate_jwt require_mfa limiter elapsed none
      handler).handlerCalled = false ∧
    (endpoint_wrapper cfg validate_jwt require_mfa limiter elapsed none handler).logs = [] :=
  ⟨rfl, rfl, rfl, rfl, rfl⟩

/-- Claim C2 (amended).  One log record is emitted exactly when the pipeline
reaches the handler phase (handler invocation or response-schema check); the
record then carries the resolved status code and the resolved principal id.
Calls rejected before the handler phase — missing context (500), rate limit
(429), authentication (401/403), request validation (422) — emit no log
record at all. -/
theorem claim_C2_logging_amended (cfg : EndpointConfig)
    (validate_jwt : String → Option Principal) (require_mfa : Principal → Bool)
    (limiter : RateLimiter) (elapsed : ℚ) (request : Option Request)
    (handler : HandlerOutcome) :
    ((endpoint_wrapper cfg validate_jwt require_mfa limiter elapsed request handler).logs.length =
      if (endpoint_wrapper cfg validate_jwt require_mfa limiter elapsed request
        handler).handlerCalled then 1 else 0) ∧
    ∀ rec ∈ (endpoint_wrapper cfg validate_jwt require_mfa limiter elapsed request handler).logs,
      rec.status_code =
        (match (endpoint_wrapper cfg validate_jwt require_mfa limiter elapsed request
          handler).result with
        | .ok _ => 200
        | .error err => err.status_code) ∧
      rec.user_id = ((endpoint_wrapper cfg validate_jwt require_mfa limiter elapsed request
        handler).user).map Principal.id := by
  unfold endpoint_wrapper
  cases request with
  | none =>
    refine ⟨rfl, ?_⟩
    intro rec hrec
    simp at hrec
  | some req =>
    dsimp only
    by_cases hadm : (limiter.acquire elapsed).1 = false
    · rw [if_pos hadm]
      refine ⟨rfl, ?_⟩
      intro rec hrec
      simp at hrec
    · rw [if_neg hadm]
      rcases hag : authGate cfg validate_jwt require_mfa req with ⟨res, vc⟩
      cases res with
      | error e =>
        dsimp only
        refine ⟨rfl, ?_⟩
        intro rec hrec
        simp at hrec
      | ok user =>
        dsimp only
        cases hvg : validationGate cfg req with
        | error e =>
          dsimp only
          refine ⟨rfl, ?_⟩
          intro rec hrec
          simp at hrec
        | ok u =>
          dsimp only
          have hp := handlerPhase_spec cfg req.method user handler
          refine ⟨by rw [if_pos rfl]; exact hp.1, hp.2⟩

/-- Endpoint registration requiring authentication, with no roles/schemas. -/
def demoCfgAuth : EndpointConfig :=
  { route := ("/t"), auth_required := true, required_roles := none,
    request_schema := none, response_schema := none }

/-- A request with no Authorization header. -/
def demoReq : Request :=
  { headers := [], method := ("GET"), jsonData := (""), queryParams := ("") }

/-- Claim C2 (counterexample to the claim as stated).  A call on an
`auth_required` endpoint with no bearer token is rejected with status 401
("Invalid auth scheme") — but the `raise` happens before the `try/except`
block that calls `log_request`, so the call emits *zero* log records, not
one: the claimed `success=false, status=401` record does not exist. -/
theorem claim_C2_counterexample :
    (endpoint_wrapper demoCfgAuth (fun _ => none) (fun _ => true) (mkRateLimiter 100) 0
      (some demoReq) (HandlerOutcome.ok ("r"))).result =
      Except.error (mkAPIError 401 ("Invalid auth scheme")) ∧
    (endpoint_wrapper demoCfgAuth (fun _ => none) (fun _ => true) (mkRateLimiter 100) 0
      (some demoReq) (HandlerOutcome.ok ("r"))).logs = [] := by
  have hacq := mkRateLimiter_acquire_zero 100 (by norm_num)
  have hag : authGate demoCfgAuth (fun _ => none) (fun _ => true) demoReq =
      (Except.error (mkAPIError 401 ("Invalid auth scheme")), false) := by decide
  unfold endpoint_wrapper
  dsimp only
  rw [if_neg (by simp [hacq]), hag]
  exact ⟨rfl, rfl⟩

/-- Claim C6.  Whenever the pipeline reaches the handler phase and the handler
raises an exception that is not an `APIError`, the caller receives the
generic internal error — status 500, fixed detail "Internal server error",
code "ERR_500" — never the original message, while the single emitted log
record carries the original error text. -/
theorem claim_C6_internal_error (cfg : EndpointConfig)
    (validate_jwt : String → Option Principal) (require_mfa : Principal → Bool)
    (limiter : RateLimiter) (elapsed : ℚ) (req : Request) (handler : HandlerOutcome)
    (msg : String) (hh : handler = HandlerOutcome.exn msg)
    (hcall : (endpoint_wrapper cfg validate_jwt require_mfa limiter elapsed (some req)
      handler).handlerCalled = true) :
    (endpoint_wrapper cfg validate_jwt require_mfa limiter elapsed (some req) handler).result =
      Except.error (mkAPIError 500 ("Internal server error")) ∧
    (endpoint_wrapper cfg validate_jwt require_mfa limiter elapsed (some req) handler).logs =
      [{ success := false, endpoint := cfg.route, method := req.method, status_code := 500,
         error := some msg,
         user_id := ((endpoint_wrapper cfg validate_jwt require_mfa limiter elapsed (some req)
           handler).user).map Principal.id }] := by
  unfold endpoint_wrapper at hcall ⊢
  dsimp only at hcall ⊢
  by_cases hadm : (limiter.acquire elapsed).1 = false
  · rw [if_pos hadm] at hcall ⊢
    exact absurd hcall (by simp)
  · rw [if_neg hadm] at hcall ⊢
    rcases hag : authGate cfg validate_jwt require_mfa req with ⟨res, vc⟩
    rw [hag] at hcall
    cases res with
    | error e =>
      dsimp only at hcall
      exact absurd hcall (by simp)
    | ok user =>
      dsimp only at hcall ⊢
      cases hvg : validationGate cfg req with
      | error e =>
        rw [hvg] at hcall
        dsimp only at hcall
        exact absurd hcall (by simp)
      | ok u =>
        dsimp only
        subst hh
        unfold handlerPhase
        dsimp only
        exact ⟨rfl, rfl⟩

/-- Endpoint registration with no authentication and no schemas. -/
def demoCfgPlain : EndpointConfig :=
  { route := ("/p"), auth_required := false, required_roles := none,
    request_schema := none, response_schema := none }

theorem claim_C6_internal_error_witness :
    (endpoint_wrapper demoCfgPlain (fun _ => none) (fun _ => true) (mkRateLimiter 100) 0
      (some demoReq) (HandlerOutcome.exn ("boom"))).result =
      Except.error (mkAPIError 500 ("Internal server error")) ∧
    (endpoint_wrapper demoCfgPlain (fun _ => none) (fun _ => true) (mkRateLimiter 100) 0
      (some demoReq) (HandlerOutcome.exn ("boom"))).logs =
      [{ success := false, endpoint := demoCfgPlain.route, method := demoReq.method,
         status_code := 500, error := some ("boom"),
         user_id := ((endpoint_wrapper demoCfgPlain (fun _ => none) (fun _ => true)
           (mkRateLimiter 100) 0 (some demoReq) (HandlerOutcome.exn ("boom"))).user).map
           Principal.id }] :=
  claim_C6_internal_error demoCfgPlain (fun _ => none) (fun _ => true) (mkRateLimiter 100) 0
    demoReq (HandlerOutcome.exn ("boom")) ("boom") rfl
    (by simp [endpoint_wrapper, authGate, validationGate, demoCfgPlain,
      mkRateLimiter_acquire_zero 100 (by norm_num)])

/-- Claim C7.  On an endpoint registered with `auth_required` and a non-empty
required-roles list, a call by an authenticated, active, MFA-passing
principal whose role set does not intersect the required roles is rejected
with the 403 "Insufficient permissions" error, and the handler is never
invoked. -/
theorem claim_C7_role_forbidden (cfg : EndpointConfig)
    (validate_jwt : String → Option Principal) (require_mfa : Principal → Bool)
    (limiter : RateLimiter) (elapsed : ℚ) (req : Request) (handler : HandlerOutcome)
    (rs : List String) (user : Principal)
    (hauth : cfg.auth_required = true) (hroles : cfg.required_roles = some rs) (hrs : rs ≠ [])
    (hstart : (getHeaderD req.headers ("Authorization")).take 7 = "Bearer ")
    (hjwt : validate_jwt ((getHeaderD req.headers ("Authorization")).drop 7) = some user)
    (hactive : user.active = true) (hmfa : require_mfa user = true)
    (hdisj : rs.any (fun r => user.roles.contains r) = false)
    (hadm : (limiter.acquire elapsed).1 = true) :
    (endpoint_wrapper cfg validate_jwt require_mfa limiter elapsed (some req) handler).result =
      Except.error (mkAPIError 403 ("Insufficient permissions")) ∧
    (endpoint_wrapper cfg validate_jwt require_mfa limiter elapsed (some req)
      handler).handlerCalled = false := by
  have hag : authGate cfg validate_jwt require_mfa req =
      (Except.error (mkAPIError 403 ("Insufficient permissions")), true) := by
    unfold authGate
    rw [if_pos hauth]
    dsimp only
    rw [if_neg (by simp [hstart]), hjwt]
    dsimp only
    rw [if_neg (by simp [hactive]), if_neg (by simp [hmfa]), hroles]
    dsimp only
    rw [if_pos ⟨hrs, hdisj⟩]
  unfold endpoint_wrapper
  dsimp only
  rw [if_neg (by simp [hadm]), hag]
  exact ⟨rfl, rfl⟩

/-- Endpoint registration requiring authentication and the "admin" role. -/
def demoCfgAdmin : EndpointConfig :=
  { route := ("/a"), auth_required := true, required_roles := some [("admin")],
    request_schema := none, response_schema := none }

/-- An active principal holding only the "user" role. -/
def demoUser : Principal := { id := 1, active := true, roles := [("user")] }

/-- A request carrying a bearer token. -/
def demoReqBearer : Request :=
  { headers := [(("Authorization"), ("Bearer tok"))], method := ("GET"),
    jsonData := (""), queryParams := ("") }

/-- Credential-validation capability resolving the demo token. -/
def demoValidate : String → Option Principal :=
  fun t => if t = ("tok") then some demoUser else none

theorem claim_C7_role_forbidden_witness :
    (endpoint_wrapper demoCfgAdmin demoValidate (fun _ => true) (mkRateLimiter 100) 0
      (some demoReqBearer) (HandlerOutcome.ok ("r"))).result =
      Except.error (mkAPIError 403 ("Insufficient permissions")) ∧
    (endpoint_wrapper demoCfgAdmin demoValidate (fun _ => true) (mkRateLimiter 100) 0
      (some demoReqBearer) (HandlerOutcome.ok ("r"))).handlerCalled = false :=
  claim_C7_role_forbidden demoCfgAdmin demoValidate (fun _ => true) (mkRateLimiter 100) 0
    demoReqBearer (HandlerOutcome.ok ("r")) [("admin")] demoUser rfl rfl (by decide)
    (by decide) (by decide) rfl rfl (by decide)
    (mkRateLimiter_acquire_zero 100 (by norm_num))
